import Mathlib

/-!
Verification development for the MTB scheduled data-synchronization utility.

The Python sources are shallowly embedded: pure computations become Lean
functions; the effectful run pipeline becomes an explicit environment/state
transformer; fallible steps return `Except`/`Option` or carry explicit
fault-injection flags in the environment.  Python `str.lower` is modelled
character-wise (ASCII case folding; the phrase sets involved are ASCII and
CJK, which Python's lower leaves unchanged as well).
-/

namespace MTB

/-- Substring test on character lists: does `pat` occur contiguously in the
second list?  Mirrors Python's `pat in s`. -/
def subList (pat : List Char) : List Char → Bool
  | [] => pat.isEmpty
  | c :: rest => pat.isPrefixOf (c :: rest) || subList pat rest

/-- `strContains s pat` mirrors Python's `pat in s`. -/
def strContains (s pat : String) : Bool :=
  subList pat.toList s.toList

/-- Character-wise lower-casing, modelling Python's `str.lower()` (ASCII
case folding; CJK characters are fixed points in both). -/
def lowerStr (s : String) : String :=
  String.mk (s.data.map Char.toLower)

/-! ## Outcome Classifier (src/mysql_to_bitable.py, run_xtf_with_config) -/

/-- Success cues scanned for (case-sensitively) in the combined output
(`success_cues` in `run_xtf_with_config`). -/
def successCues : List String :=
  ["同步完成", "🎉 批量创建完成", "批量创建完成"]

/-- Hard-failure indicators tested against the lower-cased output — the
inline list of the `if any(...)` on the fatal-keyword branch.  (The source
also declares a `hard_fail_indicators` variable that additionally lists
" - error - ", but the branch that forces failure uses this inline
five-element list; the generic error marker is handled separately.) -/
def hardFailCues : List String :=
  ["同步出错", "程序异常", "traceback", "获取访问令牌失败", "app secret invalid"]

/-- Whitelist of ignorable error contexts (`whitelist_markers`). -/
def whitelistMarkers : List String :=
  ["record not found", "错误码 1254043", "1254043"]

/-- Does the output contain a success cue (matched against the raw text)? -/
def hasSuccessCue (output : String) : Bool :=
  successCues.any (fun cue => strContains output cue)

/-- Does the lower-cased output contain a hard-failure indicator? -/
def hasHardFail (output : String) : Bool :=
  hardFailCues.any (fun ind => strContains (lowerStr output) ind)

/-- Does the lower-cased output contain the generic error-log marker? -/
def hasErrorMarker (output : String) : Bool :=
  strContains (lowerStr output) " - error - "

/-- Does the lower-cased output contain a whitelisted benign substring? -/
def hasWhitelistMarker (output : String) : Bool :=
  whitelistMarkers.any (fun w => strContains (lowerStr output) w)

/-- The output-classification logic of `run_xtf_with_config`:
`ok` starts as presence of a success cue; a hard-failure indicator forces
`false`; otherwise a generic error marker outside any whitelist context
forces `false`. -/
def xtfClassify (output : String) : Bool :=
  let ok := hasSuccessCue output
  if hasHardFail output then false
  else if hasErrorMarker output && !hasWhitelistMarker output then false
  else ok

/-- Environment for one invocation of the external XTF program:
whether `XTF-main/XTF.py` exists on disk, and the captured exit code,
stdout and stderr of the subprocess. -/
structure XtfEnv where
  xtfExists : Bool
  returncode : Int
  stdout : String
  stderr : String

/-- Combined output text: `stdout + ("\n" + stderr if stderr else "")`. -/
def xtfOutput (env : XtfEnv) : String :=
  env.stdout ++ (if env.stderr ≠ "" then "\n" ++ env.stderr else "")

/-- `run_xtf_with_config`: returns `(returncode, ok, output)`.  When the
XTF entry script is missing it returns `(1, False, "XTF.py not found")`;
otherwise the subprocess result is classified by `xtfClassify`. -/
def run_xtf_with_config (env : XtfEnv) : Int × Bool × String :=
  if !env.xtfExists then (1, false, "XTF.py not found")
  else
    let output := xtfOutput env
    (env.returncode, xtfClassify output, output)

/-! ## SHA-256, HMAC-SHA256, base64, UTF-8 (for the webhook signature)

Bytes are `Nat` values `< 256`; 32-bit words are `Nat` values reduced
modulo `2^32` wherever overflow matters. -/

/-- Truncate to a 32-bit word. -/
def wmask (x : Nat) : Nat := x % 4294967296

/-- 32-bit right rotation. -/
def rotr (n x : Nat) : Nat := wmask ((x >>> n) ||| (x <<< (32 - n)))

/-- SHA-256 round constants. -/
def sha256K : List Nat :=
  [1116352408, 1899447441, 3049323471, 3921009573, 961987163, 1508970993,
   2453635748, 2870763221, 3624381080, 310598401, 607225278, 1426881987,
   1925078388, 2162078206, 2614888103, 3248222580, 3835390401, 4022224774,
   264347078, 604807628, 770255983, 1249150122, 1555081692, 1996064986,
   2554220882, 2821834349, 2952996808, 3210313671, 3336571891, 3584528711,
   113926993, 338241895, 666307205, 773529912, 1294757372, 1396182291,
   1695183700, 1986661051, 2177026350, 2456956037, 2730485921, 2820302411,
   3259730800, 3345764771, 3516065817, 3600352804, 4094571909, 275423344,
   430227734, 506948616, 659060556, 883997877, 958139571, 1322822218,
   1537002063, 1747873779, 1955562222, 2024104815, 2227730452, 2361852424,
   2428436474, 2756734187, 3204031479, 3329325298]

/-- SHA-256 initial hash state. -/
def sha256H0 : List Nat :=
  [1779033703, 3144134277, 1013904242, 2773480762, 1359893119, 2600822924,
   528734635, 1541459225]

/-- Group bytes into big-endian 32-bit words. -/
def bytesToWords : List Nat → List Nat
  | b0 :: b1 :: b2 :: b3 :: rest =>
      (b0 * 16777216 + b1 * 65536 + b2 * 256 + b3) :: bytesToWords rest
  | _ => []

/-- Big-endian 8-byte encoding of a (bit-) length. -/
def bigEndian8 (n : Nat) : List Nat :=
  [n / 72057594037927936 % 256, n / 281474976710656 % 256, n / 1099511627776 % 256,
   n / 4294967296 % 256, n / 16777216 % 256, n / 65536 % 256, n / 256 % 256, n % 256]

/-- SHA-256 padding: `0x80`, zeros to 56 mod 64, then the 64-bit bit length. -/
def sha256Pad (msg : List Nat) : List Nat :=
  let len := msg.length
  let k := (119 - len % 64) % 64
  msg ++ [128] ++ List.replicate k 0 ++ bigEndian8 (len * 8)

/-- Extend the 16-word message schedule by `n` further words. -/
def extendSched (w : Array Nat) : Nat → Array Nat
  | 0 => w
  | n + 1 =>
      let i := w.size
      let w15 := w.getD (i - 15) 0
      let w2 := w.getD (i - 2) 0
      let s0 := rotr 7 w15 ^^^ rotr 18 w15 ^^^ (w15 >>> 3)
      let s1 := rotr 17 w2 ^^^ rotr 19 w2 ^^^ (w2 >>> 10)
      extendSched (w.push (wmask (w.getD (i - 16) 0 + s0 + w.getD (i - 7) 0 + s1))) n

/-- One SHA-256 round on the working variables `[a,b,c,d,e,f,g,h]`. -/
def sha256Round (st : List Nat) (ki wi : Nat) : List Nat :=
  match st with
  | [a, b, c, d, e, f, g, h] =>
      let S1 := rotr 6 e ^^^ rotr 11 e ^^^ rotr 25 e
      let ch := (e &&& f) ^^^ ((e ^^^ 4294967295) &&& g)
      let temp1 := wmask (h + S1 + ch + ki + wi)
      let S0 := rotr 2 a ^^^ rotr 13 a ^^^ rotr 22 a
      let maj := (a &&& b) ^^^ (a &&& c) ^^^ (b &&& c)
      let temp2 := wmask (S0 + maj)
      [wmask (temp1 + temp2), a, b, c, wmask (d + temp1), e, f, g]
  | other => other

/-- Compress one 64-byte block into the hash state. -/
def sha256Compress (hs : List Nat) (block : List Nat) : List Nat :=
  let w := extendSched (Array.mk (bytesToWords block)) 48
  let st := (sha256K.zip w.toList).foldl (fun st p => sha256Round st p.1 p.2) hs
  (hs.zip st).map (fun p => wmask (p.1 + p.2))

/-- Fold the compression function over `fuel` consecutive 64-byte blocks. -/
def sha256Blocks (hs : List Nat) (bs : List Nat) : Nat → List Nat
  | 0 => hs
  | n + 1 => sha256Blocks (sha256Compress hs (bs.take 64)) (bs.drop 64) n

/-- SHA-256 of a byte list, as a 32-byte list. -/
def sha256 (msg : List Nat) : List Nat :=
  let padded := sha256Pad msg
  let hs := sha256Blocks sha256H0 padded (padded.length / 64)
  hs.flatMap (fun w => [w / 16777216 % 256, w / 65536 % 256, w / 256 % 256, w % 256])

/-- HMAC-SHA256 (RFC 2104) with byte-list key and message. -/
def hmacSha256 (key msg : List Nat) : List Nat :=
  let key1 := if key.length > 64 then sha256 key else key
  let keyPad := key1 ++ List.replicate (64 - key1.length) 0
  let ipadded := keyPad.map (fun b => b ^^^ 54)
  let opadded := keyPad.map (fun b => b ^^^ 92)
  sha256 (opadded ++ sha256 (ipadded ++ msg))

/-- The standard base64 alphabet. -/
def base64Alphabet : List Char :=
  "ABCDEFGHIJKLMNOPQRSTUVWXYZabcdefghijklmnopqrstuvwxyz0123456789+/".toList

/-- Base64 digit for a 6-bit value. -/
def b64Char (n : Nat) : Char := base64Alphabet.getD n 'A'

/-- Base64-encode a byte list, three bytes at a time, with `=` padding. -/
def base64Chars : List Nat → List Char
  | [] => []
  | [b0] => [b64Char (b0 / 4), b64Char (b0 % 4 * 16), '=', '=']
  | [b0, b1] => [b64Char (b0 / 4), b64Char (b0 % 4 * 16 + b1 / 16), b64Char (b1 % 16 * 4), '=']
  | b0 :: b1 :: b2 :: rest =>
      b64Char (b0 / 4) :: b64Char (b0 % 4 * 16 + b1 / 16) ::
      b64Char (b1 % 16 * 4 + b2 / 64) :: b64Char (b2 % 64) :: base64Chars rest

/-- Base64 encoding as a string (Python `base64.b64encode(...).decode()`). -/
def base64Encode (bs : List Nat) : String := String.mk (base64Chars bs)

/-- UTF-8 encoding of one scalar value. -/
def utf8Char (c : Char) : List Nat :=
  let n := c.toNat
  if n < 128 then [n]
  else if n < 2048 then [192 + n / 64, 128 + n % 64]
  else if n < 65536 then [224 + n / 4096, 128 + n / 64 % 64, 128 + n % 64]
  else [240 + n / 262144, 128 + n / 4096 % 64, 128 + n / 64 % 64, 128 + n % 64]

/-- UTF-8 encoding of a string (Python `s.encode("utf-8")`). -/
def utf8Bytes (s : String) : List Nat := s.data.flatMap utf8Char

/-! ## Notifier (src/sync_runner.py, _send_webhook) -/

/-- The JSON fields of a webhook response body that `_send_webhook` reads.
Absent fields are `none` (Python `dict.get` default).  Integer-valued
status codes are modelled; the code's `code == 0` comparison is false for
any non-integer JSON value, which the `Option Int` model captures for the
integer case. -/
structure RespJson where
  statusCodeField : Option Int
  codeField : Option Int
  statusMessageField : Option String
  msgField : Option String

/-- An HTTP response delivered to `requests.post`: status code, raw text
and the JSON parse result (`none` when `resp.json()` raises). -/
structure HttpResp where
  statusCode : Nat
  text : String
  json : Option RespJson

/-- Environment for one `_send_webhook` call: the configured webhook URL
and secret, the current unix time `int(time.time())`, the rendered Beijing
wall-clock string used in the debug suffix, and the network outcome
(`none` means `requests.post` raised; `excMsg` is the exception's string). -/
structure WebhookEnv where
  webhookUrl : String
  webhookSecret : String
  now : Nat
  beijingTime : String
  response : Option HttpResp
  excMsg : String

/-- The JSON payload posted to the webhook. -/
structure Payload where
  msgType : String
  text : String
  timestamp : Option String
  sign : Option String

/-- Take the first 200 characters (Python `txt[:200]`). -/
def take200 (s : String) : String := String.mk (s.data.take 200)

/-- `_send_webhook(message)`: returns `((ok, info), payload?)` where
`payload?` is the request body that was posted (`none` when the call
returned before posting because no webhook URL is configured).  The Lean
function is total: every fallible step of the source (network error,
JSON parse error) is an explicit environment case, modelling the
contract that the function never raises. -/
def sendWebhook (env : WebhookEnv) (message : String) : (Bool × String) × Option Payload :=
  if env.webhookUrl = "" then ((false, "webhook_url empty"), none)
  else
    let base : Payload := { msgType := "text", text := message, timestamp := none, sign := none }
    let signed :=
      if env.webhookSecret ≠ "" then
        let timestamp := toString env.now
        let stringToSign := timestamp ++ "\n" ++ env.webhookSecret
        let sign := base64Encode (hmacSha256 (utf8Bytes stringToSign) [])
        ({ base with timestamp := some timestamp, sign := some sign },
         " (ts=" ++ timestamp ++ ", beijing_time=" ++ env.beijingTime ++ ")")
      else (base, "")
    let payload := signed.1
    let debugSuffix := signed.2
    match env.response with
    | none => ((false, "exception: " ++ env.excMsg ++ debugSuffix), some payload)
    | some resp =>
      if resp.statusCode ≠ 200 then
        ((false, "http " ++ toString resp.statusCode ++ ": " ++ take200 resp.text ++ debugSuffix),
         some payload)
      else
        match resp.json with
        | none => ((true, "ok"), some payload)
        | some data =>
          let code := data.statusCodeField.getD (data.codeField.getD 0)
          let msg := data.statusMessageField.getD (data.msgField.getD "")
          if code = 0 then ((true, "ok"), some payload)
          else ((false, "feishu code=" ++ toString code ++ ", msg=" ++ msg ++ debugSuffix),
                some payload)

/-! ## Run Executor (src/sync_runner.py, run_task) -/

/-- Split a character list at `\n`, producing every piece (including a
trailing empty one after a final newline); `acc` holds the current piece
reversed. -/
def splitNlAux : List Char → List Char → List String
  | [], acc => [String.mk acc.reverse]
  | c :: rest, acc =>
      if c = '\n' then String.mk acc.reverse :: splitNlAux rest []
      else splitNlAux rest (c :: acc)

/-- Python `splitlines` restricted to `\n` separators: split on `\n` and
drop the trailing empty piece produced by a final newline.  (Python also
splits on `\r` and rarer line terminators; the texts involved here use
`\n`.) -/
def pySplitlines (s : String) : List String :=
  let parts := splitNlAux s.data []
  if parts.getLast? = some "" then parts.dropLast else parts

/-- The last `n` elements of a list (Python `l[-n:]`). -/
def lastN (n : Nat) (l : List String) : List String :=
  l.drop (l.length - n)

/-- The human remediation summary for permission errors. -/
def permissionSummary : String :=
  "暂无权限——当前应用/机器人对目标多维表没有足够权限（读取/创建字段）。请在多维表中邀请该机器人并授予编辑或管理员权限"

/-- The failure message built in `run_task` when XTF classification failed:
the last 10 output lines joined by " | " (or a fixed hint when empty),
prefixed by a permission-error summary when a recognized permission
error code/phrase occurs in the output. -/
def failMessage (rc : Int) (output : String) : String :=
  let tail := lastN 10 (pySplitlines output)
  let tailText := if tail.isEmpty then "失败，详见控制台/日志" else String.intercalate " | " tail
  let lowerOut := lowerStr output
  let permissionError :=
    strContains output "91403" || strContains output "1254302" ||
    strContains lowerOut "forbidden" || strContains lowerOut "no permissions" ||
    strContains lowerOut "the role has no permissions"
  if permissionError then
    permissionSummary ++ " | XTF 返回码 " ++ toString rc ++ "; " ++ tailText
  else
    "XTF 返回码 " ++ toString rc ++ "; " ++ tailText

/-- The success message built in `run_task`. -/
def successMessage (rowCount : Nat) (syncMode target : String) : String :=
  "同步成功: 行数=" ++ toString rowCount ++ ", 模式=" ++ syncMode ++ ", 目标=" ++ target

/-- Environment of one `run_task(task_id)` invocation.  `prepErr` injects
an exception anywhere inside the guarded extract/normalize/materialize/
configure/invoke block as the pair `(str(e), traceback.format_exc())`;
when it is `none` the external invocation outcome is `xtf`.
`displayTarget` is the rendering `_display_target_from_link(task.feishu_link)`
used only inside the success message (link parsing is not under any claim
and is carried as an input).  `finalizeRaises` injects an exception in the
log/task finalize transaction, `notifyAppendRaises` one in the
webhook-failure log append; both are outside the source's `try` block. -/
structure RunEnv where
  taskExists : Bool
  taskName : String
  rowCount : Nat
  syncMode : String
  displayTarget : String
  lockFree : Bool
  prepErr : Option (String × String)
  xtf : XtfEnv
  finalizeRaises : Bool
  webhook : WebhookEnv
  notifyAppendRaises : Bool
  unlinkOk : Bool

/-- One SyncLog row as far as run state is observable: its status, message
and whether the terminal update set an end time. -/
structure LogRow where
  status : String
  message : String
  hasEndTime : Bool
deriving DecidableEq

/-- Observable final state of one run attempt: the SyncLog rows created
for it, the value written to `task.last_run_status` (`none` = not
updated), whether the file lock is still held, and whether the lock file
was unlinked. -/
structure RunState where
  logs : List LogRow
  lastRunStatus : Option String
  lockHeld : Bool
  lockFileRemoved : Bool
deriving DecidableEq

/-- Result of `run_task`: the final observable state plus the exception
that propagated out of the call, if any. -/
structure RunOutcome where
  state : RunState
  raised : Option String
deriving DecidableEq

/-- Shallow embedding of `run_task(task_id)` (src/sync_runner.py). -/
def run_task (env : RunEnv) : RunOutcome :=
  if !env.taskExists then ⟨⟨[], none, false, false⟩, none⟩
  else if !env.lockFree then
    -- BlockingIOError: close session and lock handle, return silently
    ⟨⟨[], none, false, false⟩, none⟩
  else
    let log0 : LogRow := ⟨"running", "start", false⟩
    let sm :=
      match env.prepErr with
      | some etb => ("fail", "异常: " ++ etb.1 ++ "\n" ++ etb.2)
      | none =>
        let r := run_xtf_with_config env.xtf
        if r.2.1 then
          ("success", successMessage env.rowCount env.syncMode env.displayTarget)
        else
          ("fail", failMessage r.1 r.2.2)
    let status := sm.1
    if env.finalizeRaises then
      ⟨⟨[log0], none, true, false⟩, some "exception in finalize commit"⟩
    else
      let log1 : LogRow := ⟨status, sm.2, true⟩
      if status ≠ "success" then
        let wr := sendWebhook env.webhook ("[DataSync] 任务失败: " ++ env.taskName ++ " - " ++ sm.2)
        if !wr.1.1 then
          if env.notifyAppendRaises then
            ⟨⟨[log1], some status, true, false⟩, some "exception in webhook-failure log append"⟩
          else
            let log2 : LogRow := { log1 with message := log1.message ++ " | Webhook推送失败: " ++ wr.1.2 }
            ⟨⟨[log2], some status, false, env.unlinkOk⟩, none⟩
        else
          ⟨⟨[log1], some status, false, env.unlinkOk⟩, none⟩
      else
        ⟨⟨[log1], some status, false, env.unlinkOk⟩, none⟩

/-! ## Schedule Registrar and task CRUD (src/main.py) -/

/-- A persisted sync task; the fields `new_task`/`edit_task`/`toggle_task`
read or write.  `id` is the integer primary key; the scheduler job id
`"task_{id}"` is represented by the id itself (the rendering is injective
in the id). -/
structure SyncTask where
  id : Nat
  name : String
  sql_text : String
  feishu_link : String
  sync_mode : String
  index_column : String
  field_type_strategy : String
  create_missing_fields : Bool
  enabled : Bool
  cron_expr : String
  last_run_status : Option String
deriving DecidableEq

/-- The five cron trigger fields, in the order `parse_cron_expr` maps
them (minute, hour, day, month, day_of_week). -/
structure CronFields where
  minute : String
  hour : String
  day : String
  month : String
  day_of_week : String
deriving DecidableEq

/-- Whitespace-run splitting of a character list, dropping empty pieces;
`acc` holds the current token reversed. -/
def splitWsAux : List Char → List Char → List String
  | [], acc => if acc.isEmpty then [] else [String.mk acc.reverse]
  | c :: rest, acc =>
      if c.isWhitespace then
        if acc.isEmpty then splitWsAux rest []
        else String.mk acc.reverse :: splitWsAux rest []
      else splitWsAux rest (c :: acc)

/-- Python `str.split()` with no separator: split on whitespace runs,
dropping empty pieces.  Because empty pieces are dropped, this also
absorbs the preceding `str.strip()` of `parse_cron_expr`. -/
def pySplitWs (s : String) : List String :=
  splitWsAux s.data []

/-- The ValueError message of `parse_cron_expr`. -/
def cronErrMsg : String := "cron_expr 需为5段表达式，如: 0 3 * * *"

/-- `parse_cron_expr(expr)`: `expr.strip().split()` must have exactly 5
fields, mapped in order to minute/hour/day/month/day_of_week; any other
count raises `ValueError` (here `Except.error`). -/
def parse_cron_expr (expr : String) : Except String CronFields :=
  let parts := pySplitWs expr
  if parts.length = 5 then
    .ok ⟨parts.getD 0 "", parts.getD 1 "", parts.getD 2 "", parts.getD 3 "", parts.getD 4 ""⟩
  else
    .error cronErrMsg

/-- The scheduler's registered recurring triggers: association of task id
to cron fields. -/
abbrev Jobs := List (Nat × CronFields)

/-- `scheduler.remove_job(f"task_{id}")` with `JobLookupError` swallowed. -/
def remove_job (jobs : Jobs) (tid : Nat) : Jobs :=
  jobs.filter (fun j => j.1 ≠ tid)

/-- `scheduler.add_job(..., id=f"task_{id}", replace_existing=True)`. -/
def add_job (jobs : Jobs) (tid : Nat) (trig : CronFields) : Jobs :=
  (tid, trig) :: remove_job jobs tid

/-- `upsert_job(task)`: remove any trigger under the task's job id
(ignoring absence); stop if the task is disabled; otherwise parse the
cron expression and register one trigger.  The second component is the
exception propagating out of the call (`some` = `parse_cron_expr`
raised, after the removal already happened). -/
def upsert_job (jobs : Jobs) (task : SyncTask) : Jobs × Option String :=
  let jobs1 := remove_job jobs task.id
  if !task.enabled then (jobs1, none)
  else
    match parse_cron_expr task.cron_expr with
    | .ok trig => (add_job jobs1 task.id trig, none)
    | .error e => (jobs1, some e)

/-- The durable+live state the task-mutating routes act on: the task table
and the scheduler's registered recurring triggers. -/
structure AppState where
  tasks : List SyncTask
  jobs : Jobs
deriving DecidableEq

/-- Python `a or b` for form strings, with an absent form field modelled
as `""`. -/
def pyOr (v d : String) : String := if v = "" then d else v

/-- The form fields of the task create/edit routes. -/
structure TaskForm where
  name : String
  sql_text : String
  feishu_link : String
  sync_mode : String
  index_column : String
  field_type_strategy : String
  create_missing_fields : Bool
  cron_expr : String

/-- The task row `new_task` inserts: form values with the source's
defaults, always `enabled=True`. -/
def taskFromForm (newId : Nat) (f : TaskForm) : SyncTask :=
  { id := newId
    name := pyOr f.name "未命名任务"
    sql_text := pyOr f.sql_text "SELECT 1"
    feishu_link := pyOr f.feishu_link ""
    sync_mode := pyOr f.sync_mode "full"
    index_column := pyOr f.index_column "id"
    field_type_strategy := pyOr f.field_type_strategy "base"
    create_missing_fields := f.create_missing_fields
    enabled := true
    cron_expr := pyOr f.cron_expr "0 3 * * *"
    last_run_status := none }

/-- Route `POST /tasks/new` (`new_task`): insert a task built from the
form with the source's defaults (always `enabled=True`), commit, then
`upsert_job`.  `newId` is the fresh autoincrement id.  The second
component is the exception propagating out of the handler, raised after
the insert was committed. -/
def create_task (s : AppState) (newId : Nat) (f : TaskForm) : AppState × Option String :=
  let t := taskFromForm newId f
  let tasks1 := s.tasks ++ [t]
  let ju := upsert_job s.jobs t
  (⟨tasks1, ju.1⟩, ju.2)

/-- The field overwrites of the edit route: each field takes the form
value or keeps the old one (Python `or` fallback); `id` and `enabled` are
not editable there. -/
def editedTask (f : TaskForm) (t : SyncTask) : SyncTask :=
  { t with
    name := pyOr f.name t.name
    sql_text := pyOr f.sql_text t.sql_text
    feishu_link := pyOr f.feishu_link t.feishu_link
    sync_mode := pyOr f.sync_mode t.sync_mode
    index_column := pyOr f.index_column t.index_column
    field_type_strategy := pyOr f.field_type_strategy t.field_type_strategy
    create_missing_fields := f.create_missing_fields
    cron_expr := pyOr f.cron_expr t.cron_expr }

/-- Route `POST /tasks/<id>/edit` (`edit_task`): 404 no-op when the task
is missing; otherwise overwrite the fields, commit, then `upsert_job`. -/
def edit_task (s : AppState) (tid : Nat) (f : TaskForm) : AppState × Option String :=
  match s.tasks.find? (fun t => t.id = tid) with
  | none => (s, none)
  | some t =>
    let t' := editedTask f t
    let tasks1 := s.tasks.map (fun u => if u.id = tid then t' else u)
    let ju := upsert_job s.jobs t'
    (⟨tasks1, ju.1⟩, ju.2)

/-- The enabled-flag flip of the toggle route. -/
def toggledTask (t : SyncTask) : SyncTask := { t with enabled := !t.enabled }

/-- Route `POST /tasks/<id>/toggle` (`toggle_task`): flip `enabled` and
commit; if now enabled, `upsert_job`; otherwise `remove_job` (absence
ignored). -/
def toggle_task (s : AppState) (tid : Nat) : AppState × Option String :=
  match s.tasks.find? (fun t => t.id = tid) with
  | none => (s, none)
  | some t =>
    let t' := toggledTask t
    let tasks1 := s.tasks.map (fun u => if u.id = tid then t' else u)
    if t'.enabled then
      let ju := upsert_job s.jobs t'
      (⟨tasks1, ju.1⟩, ju.2)
    else
      (⟨tasks1, remove_job s.jobs tid⟩, none)

/-- Route `POST /tasks/<id>/delete` (`delete_task`): remove the trigger
(absence ignored), delete the row, commit. -/
def delete_task (s : AppState) (tid : Nat) : AppState × Option String :=
  match s.tasks.find? (fun t => t.id = tid) with
  | none => (s, none)
  | some _ =>
    (⟨s.tasks.filter (fun t => t.id ≠ tid), remove_job s.jobs tid⟩, none)

/-- The registration invariant: a trigger is registered under an id
exactly when an enabled task with that id exists, and task ids and
registered job ids are unique (the database primary key and APScheduler's
unique job ids). -/
structure Inv (s : AppState) : Prop where
  sync : ∀ tid, (∃ j ∈ s.jobs, j.1 = tid) ↔ (∃ t ∈ s.tasks, t.id = tid ∧ t.enabled = true)
  tasksNodup : (s.tasks.map SyncTask.id).Nodup
  jobsNodup : (s.jobs.map Prod.fst).Nodup

/-! ## CLI export/import utility (src/mysql_to_bitable.py, main) -/

/-- The `source` section of the configuration document, as `main` reads it
(`source.get(...)`; absent keys are `none`). -/
structure SourceCfg where
  host : Option String
  username : Option String
  password : Option String
  database : Option String
  table : Option String
  sql : Option String

/-- The parsed configuration document: the `source` section (absent or
non-dict becomes all-absent), the `file_path` key, and a rendering of the
remaining keys.  YAML parsing itself is not under any claim; the
environment carries the parse result of the on-disk text. -/
structure CfgDoc where
  source : Option SourceCfg
  file_path : Option String
  restText : String

/-- Python `v in (None, '')` on an optional string: the validation test
of `main`'s `missing` computation. -/
def missingVal (v : Option String) : Bool :=
  v.isNone || v = some ""

/-- `build_clean_config_text(cfg, excel_path)`: the document with the
`source` section removed and `file_path` pointing at the generated
spreadsheet.  The `yaml.safe_dump` rendering of the remaining keys is
abstracted as `cfg.restText`. -/
def buildCleanConfigText (cfg : CfgDoc) (excelPath : String) : String :=
  "file_path: " ++ excelPath ++ "\n" ++ cfg.restText

/-- Environment of one `main()` run of the CLI utility: the on-disk text
of the configuration document, its parse result, the query outcome
(`readErr` = exception from `read_mysql_to_df`, else `rowCount` rows),
and the external invocation outcome (`xtfRaises` injects an exception
out of `run_xtf_with_config`, e.g. from `subprocess.run`; otherwise the
result is `xtf`). -/
structure MainEnv where
  cfgText : String
  cfg : CfgDoc
  readErr : Option String
  rowCount : Nat
  xtfRaises : Option String
  xtf : XtfEnv

/-- Observable result of one CLI run: the exit status (`none` = an
uncaught exception propagated instead of `sys.exit`), the final on-disk
text of the configuration document, the document text while the external
program ran (when that point was reached), and whether the spreadsheet
was written / the external program invoked. -/
structure MainResult where
  exitCode : Option Int
  finalCfgText : String
  midCfgText : Option String
  excelWritten : Bool
  xtfInvoked : Bool
deriving DecidableEq

/-- Shallow embedding of `main()` (src/mysql_to_bitable.py): validate the
source credentials, query, exit 0 early on an empty result, export the
spreadsheet, temporarily overwrite the document (source removed,
file_path redirected), invoke XTF, and restore the original text in a
`finally` whose restore-write failure is swallowed (the restore write is
modelled as succeeding).  Exits with `0` on classified success, else the
external return code, with `0` mapped to `1` (`rc or 1`). -/
def cliMain (env : MainEnv) : MainResult :=
  let src := env.cfg.source.getD ⟨none, none, none, none, none, none⟩
  if missingVal src.host || missingVal src.username ||
     missingVal src.password || missingVal src.database then
    ⟨some 1, env.cfgText, none, false, false⟩
  else
    match env.readErr with
    | some _ => ⟨none, env.cfgText, none, false, false⟩
    | none =>
      if env.rowCount = 0 then
        ⟨some 0, env.cfgText, none, false, false⟩
      else
        let excelPath := pyOr (env.cfg.file_path.getD "") "_tmp_mysql_export.xlsx"
        let originalText := env.cfgText
        let cleanedText := buildCleanConfigText env.cfg excelPath
        -- cfg_path.write_text(cleaned_text) … finally restore original_text
        match env.xtfRaises with
        | some _ => ⟨none, originalText, some cleanedText, true, true⟩
        | none =>
          let r := run_xtf_with_config env.xtf
          let code := if r.2.1 then (0 : Int) else (if r.1 = 0 then 1 else r.1)
          ⟨some code, originalText, some cleanedText, true, true⟩

/-! ## Claim statements as written, and concrete scenario inputs -/

/-- The signing formula in the spec's words: base64 of the HMAC-SHA256
digest computed with key `str(t) + "\n" + secret` over an empty message
body. -/
def specSignature (t : Nat) (secret : String) : String :=
  base64Encode (hmacSha256 (utf8Bytes (toString t ++ "\n" ++ secret)) [])

/-- Claim C1 as written: in every run that gets past the lock, any
exception in the guarded pipeline becomes a persisted `fail` log carrying
the exception detail, and on every exit path the lock is released and no
log row is left at `running`. -/
def C1_asStated : Prop :=
  ∀ env : RunEnv, env.taskExists = true → env.lockFree = true →
    (run_task env).state.lockHeld = false
    ∧ (∀ l ∈ (run_task env).state.logs, l.status ≠ "running")
    ∧ (∀ e tb, env.prepErr = some (e, tb) →
        ∃ l ∈ (run_task env).state.logs,
          l.status = "fail" ∧ strContains l.message ("异常: " ++ e) = true)

/-- Claim C3 as written: generic error marker + a whitelisted benign
substring + no hard-failure phrase always classifies as success. -/
def C3_asStated : Prop :=
  ∀ output : String,
    hasErrorMarker output = true →
    hasWhitelistMarker output = true →
    hasHardFail output = false →
    xtfClassify output = true

/-- Claim C8 as written: never raises; no endpoint → immediate failure;
non-200 → failure; 200 with status-code field 0 → success; any other
status-code value, or an unparseable 200 body, → delivered-success. -/
def C8_asStated : Prop :=
  ∀ (env : WebhookEnv) (msg : String),
    (env.webhookUrl = "" → (sendWebhook env msg).1 = (false, "webhook_url empty"))
    ∧ (env.webhookUrl ≠ "" →
        (∀ resp, env.response = some resp → resp.statusCode ≠ 200 →
          (sendWebhook env msg).1.1 = false)
        ∧ (∀ resp data, env.response = some resp → resp.statusCode = 200 →
            resp.json = some data →
            data.statusCodeField.getD (data.codeField.getD 0) = 0 →
            (sendWebhook env msg).1.1 = true)
        ∧ (∀ resp data, env.response = some resp → resp.statusCode = 200 →
            resp.json = some data →
            data.statusCodeField.getD (data.codeField.getD 0) ≠ 0 →
            (sendWebhook env msg).1.1 = true)
        ∧ (∀ resp, env.response = some resp → resp.statusCode = 200 →
            resp.json = none → (sendWebhook env msg).1.1 = true))

/-- A webhook environment with no configured URL (and no secret). -/
def noWebhook : WebhookEnv := ⟨"", "", 0, "", none, ""⟩

/-- A default external-invocation environment (program present, exit 0,
empty output). -/
def quietXtf : XtfEnv := ⟨true, 0, "", ""⟩

/-- Run environment refuting C1 as written: the pipeline raised, and the
finalize transaction also raises, so the handler exits exceptionally
before the lock-release block. -/
def cex1Env : RunEnv :=
  ⟨true, "T", 0, "full", "bitable", true, some ("boom", "tb"), quietXtf, true, noWebhook, false, true⟩

/-- Run environment for the amended C1: pipeline exception, healthy
finalize and notify bookkeeping (the webhook itself fails for lack of a
URL, and the failure note is appended successfully). -/
def wit1Env : RunEnv :=
  ⟨true, "T", 0, "full", "bitable", true, some ("boom", "tb"), quietXtf, false, noWebhook, false, true⟩

/-- Run environment for C4: the task exists but its lock is already
held. -/
def wit4Env : RunEnv :=
  ⟨true, "T", 0, "full", "bitable", false, none, quietXtf, false, noWebhook, false, true⟩

/-- A 200 response whose JSON body carries `code = 7`. -/
def cex8Resp : HttpResp := ⟨200, "{}", some ⟨none, some 7, none, none⟩⟩

/-- Webhook environment refuting C8 as written: configured URL, 200
response, status-code field 7. -/
def cex8Env : WebhookEnv := ⟨"https://w", "", 0, "", some cex8Resp, ""⟩

/-- A 200 response whose JSON body carries `StatusCode = 0`. -/
def wit8Resp : HttpResp := ⟨200, "{}", some ⟨some 0, none, none, none⟩⟩

/-- Webhook environment for the amended C8 witness. -/
def wit8Env : WebhookEnv := ⟨"https://w", "", 0, "", some wit8Resp, ""⟩

/-- Webhook environment for the C7 witness: secret configured, posting at
unix time 1700000000. -/
def wit7Env : WebhookEnv := ⟨"https://w", "SECRET", 1700000000, "2023-11-15 06:13:20", none, "err"⟩

/-- A well-formed source section for the CLI witness. -/
def wit10Src : SourceCfg := ⟨some "h", some "u", some "p", some "d", none, some "SELECT 1"⟩

/-- CLI environment for the C10 witness: valid credentials, query returns
zero rows. -/
def wit10Env : MainEnv := ⟨"orig config text", ⟨some wit10Src, some "out.xlsx", "rest"⟩, none, 0, none, quietXtf⟩

/-- The empty application state. -/
def emptyApp : AppState := ⟨[], []⟩

/-- An all-absent create form (every field takes its default). -/
def defaultForm : TaskForm := ⟨"", "", "", "", "", "", true, ""⟩

/-- The task `new_task` builds from `defaultForm` with fresh id 1. -/
def defaultTask : SyncTask :=
  ⟨1, "未命名任务", "SELECT 1", "", "full", "id", "base", true, true, "0 3 * * *", none⟩

/-- The trigger parsed from the default cron expression. -/
def defaultTrig : CronFields := ⟨"0", "3", "*", "*", "*"⟩

/-! ## Theorems -/

/-- C2: for every captured output and exit code, classification is
independent of the exit code; it returns success whenever a success
phrase is present, no hard-failure phrase is present, and any generic
error marker comes with a whitelisted substring; and a hard-failure
phrase (matched case-insensitively against the lower-cased text) forces
failure even alongside a success phrase. -/
theorem C2_outcome_classifier (stdout stderr : String) (rc rc' : Int) :
    (run_xtf_with_config ⟨true, rc, stdout, stderr⟩).2.1
      = (run_xtf_with_config ⟨true, rc', stdout, stderr⟩).2.1
    ∧ (∀ output : String,
        hasSuccessCue output = true →
        hasHardFail output = false →
        (hasErrorMarker output = true → hasWhitelistMarker output = true) →
        xtfClassify output = true)
    ∧ (∀ output : String, hasHardFail output = true → xtfClassify output = false) := by
  refine ⟨rfl, ?_, ?_⟩
  · intro output h1 h2 h3
    cases hEM : hasErrorMarker output with
    | false => simp [xtfClassify, h1, h2, hEM]
    | true => simp [xtfClassify, h1, h2, hEM, h3 hEM]
  · intro output hHF
    simp [xtfClassify, hHF]

/-- Witness for C2 at concrete outputs: a success cue with a whitelisted
error marker classifies as success regardless of exit code, and a
hard-failure phrase forces failure despite the success cue. -/
theorem C2_outcome_classifier_witness :
    xtfClassify "同步完成 x - ERROR - 1254043" = true
    ∧ xtfClassify "同步完成 traceback" = false :=
  ⟨(C2_outcome_classifier "" "" 0 1).2.1 "同步完成 x - ERROR - 1254043"
      (by decide) (by decide) (fun _ => by decide),
   (C2_outcome_classifier "" "" 0 1).2.2 "同步完成 traceback" (by decide)⟩

/-- C3 counterexample: the claim as written is false — output consisting
of a generic error marker with a whitelisted benign substring and no
hard-failure phrase, but no success phrase, classifies as failure, since
the whitelist only prevents the error marker from overriding; it never
sets success by itself. -/
theorem C3_counterexample : ¬ C3_asStated := by
  intro h
  exact absurd (h "x - error - record not found" (by decide) (by decide) (by decide)) (by decide)

/-- C3 amended: if additionally a success phrase is present, output
containing the generic error marker together with a whitelisted benign
substring and no hard-failure phrase classifies as success. -/
theorem C3_whitelisted_error (output : String)
    (hm : hasErrorMarker output = true)
    (hw : hasWhitelistMarker output = true)
    (hh : hasHardFail output = false)
    (hs : hasSuccessCue output = true) :
    xtfClassify output = true := by
  simp [xtfClassify, hm, hw, hh, hs]

/-- Witness for the amended C3 at a concrete output. -/
theorem C3_whitelisted_error_witness :
    xtfClassify "同步完成 x - error - record not found" = true :=
  C3_whitelisted_error "同步完成 x - error - record not found"
    (by decide) (by decide) (by decide) (by decide)

/-- C7: whenever a signing secret is configured, the posted payload
carries `timestamp = str(t)` and `sign` equal to the spec's formula:
base64 of the HMAC-SHA256 digest keyed by `str(t) + "\n" + secret` over
an empty message body. -/
theorem C7_webhook_signature (env : WebhookEnv) (msg : String)
    (hurl : env.webhookUrl ≠ "") (hsec : env.webhookSecret ≠ "") :
    ∃ p : Payload, (sendWebhook env msg).2 = some p
      ∧ p.sign = some (specSignature env.now env.webhookSecret)
      ∧ p.timestamp = some (toString env.now) := by
  refine ⟨{ msgType := "text", text := msg, timestamp := some (toString env.now),
            sign := some (specSignature env.now env.webhookSecret) }, ?_, rfl, rfl⟩
  rcases hresp : env.response with _ | resp
  · simp [sendWebhook, hurl, hsec, hresp, specSignature]
  · by_cases hsc : resp.statusCode = 200
    · rcases hjson : resp.json with _ | data
      · simp [sendWebhook, hurl, hsec, hresp, hsc, hjson, specSignature]
      · by_cases hcode : data.statusCodeField.getD (data.codeField.getD 0) = 0 <;>
          simp [sendWebhook, hurl, hsec, hresp, hsc, hjson, hcode, specSignature]
    · simp [sendWebhook, hurl, hsec, hresp, hsc, specSignature]

set_option maxRecDepth 1000000 in
/-- Witness for C7: posting at unix time 1700000000 with secret `SECRET`
yields the deterministic signature, reproduced concretely. -/
theorem C7_webhook_signature_witness :
    (∃ p : Payload, (sendWebhook wit7Env "test").2 = some p
      ∧ p.sign = some (specSignature 1700000000 "SECRET")
      ∧ p.timestamp = some (toString (1700000000 : Nat)))
    ∧ specSignature 1700000000 "SECRET" = "9st/5TeJu7lS2mv/qJq3skcz1M5+oBrSVM/mQRjuq8Q=" :=
  ⟨C7_webhook_signature wit7Env "test" (by decide) (by decide), by decide⟩

/-- C8 counterexample: the claim as written is false — a 200 response
whose parsed status-code field is 7 (not 0) is reported as failure, not
as delivered-success. -/
theorem C8_counterexample : ¬ C8_asStated := by
  intro h
  have h4 := ((h cex8Env "m").2 (by decide)).2.2.1 cex8Resp ⟨none, some 7, none, none⟩
    rfl rfl rfl (by decide)
  exact absurd h4 (by decide)

/-- C8 amended: `_send_webhook` never raises (the Lean embedding is total
over every injected network/parse outcome); no configured endpoint gives
an immediate failure with a descriptive diagnostic; a non-200 response is
failure; a 200 response with parsed status-code 0 is success; a parsed
non-zero status code is failure; only a 200 body that fails to parse as
JSON falls back to delivered-success. -/
theorem C8_webhook_result (env : WebhookEnv) (msg : String) :
    (env.webhookUrl = "" → (sendWebhook env msg).1 = (false, "webhook_url empty"))
    ∧ (env.webhookUrl ≠ "" →
        (∀ resp, env.response = some resp → resp.statusCode ≠ 200 →
          (sendWebhook env msg).1.1 = false)
        ∧ (∀ resp data, env.response = some resp → resp.statusCode = 200 →
            resp.json = some data →
            data.statusCodeField.getD (data.codeField.getD 0) = 0 →
            (sendWebhook env msg).1.1 = true)
        ∧ (∀ resp data, env.response = some resp → resp.statusCode = 200 →
            resp.json = some data →
            data.statusCodeField.getD (data.codeField.getD 0) ≠ 0 →
            (sendWebhook env msg).1.1 = false)
        ∧ (∀ resp, env.response = some resp → resp.statusCode = 200 →
            resp.json = none → (sendWebhook env msg).1.1 = true)) := by
  constructor
  · intro hurl
    simp [sendWebhook, hurl]
  · intro hurl
    refine ⟨?_, ?_, ?_, ?_⟩
    · intro resp hresp hsc
      simp [sendWebhook, hurl, hresp, hsc]
    · intro resp data hresp hsc hjson hcode
      simp [sendWebhook, hurl, hresp, hsc, hjson, hcode]
    · intro resp data hresp hsc hjson hcode
      simp [sendWebhook, hurl, hresp, hsc, hjson, hcode]
    · intro resp hresp hsc hjson
      simp [sendWebhook, hurl, hresp, hsc, hjson]

/-- Witness for the amended C8 at concrete responses: status-code 0 is
success and status-code 7 is failure. -/
theorem C8_webhook_result_witness :
    (sendWebhook wit8Env "m").1.1 = true ∧ (sendWebhook cex8Env "m").1.1 = false :=
  ⟨((C8_webhook_result wit8Env "m").2 (by decide)).2.1 wit8Resp ⟨some 0, none, none, none⟩
      rfl rfl rfl (by decide),
   ((C8_webhook_result cex8Env "m").2 (by decide)).2.2.1 cex8Resp ⟨none, some 7, none, none⟩
      rfl rfl rfl (by decide)⟩

/-- C9: the CLI utility's configuration document ends every run with its
pre-run on-disk content, across validation failure, query failure, the
empty-result early exit, and classified success, classified failure or a
raised exception of the external invocation. -/
theorem C9_config_roundtrip (env : MainEnv) :
    (cliMain env).finalCfgText = env.cfgText := by
  simp only [cliMain]
  repeat' split
  all_goals rfl

/-- C10: with valid source credentials and a query returning zero rows,
the CLI exits with status 0, writes no spreadsheet, leaves the document
unmutated and never invokes the external program. -/
theorem C10_empty_result (env : MainEnv)
    (h1 : missingVal (env.cfg.source.getD ⟨none, none, none, none, none, none⟩).host = false)
    (h2 : missingVal (env.cfg.source.getD ⟨none, none, none, none, none, none⟩).username = false)
    (h3 : missingVal (env.cfg.source.getD ⟨none, none, none, none, none, none⟩).password = false)
    (h4 : missingVal (env.cfg.source.getD ⟨none, none, none, none, none, none⟩).database = false)
    (hr : env.readErr = none) (hz : env.rowCount = 0) :
    cliMain env = ⟨some 0, env.cfgText, none, false, false⟩ := by
  simp [cliMain, h1, h2, h3, h4, hr, hz]

/-- Witness for C10 at a concrete environment. -/
theorem C10_empty_result_witness :
    cliMain wit10Env = ⟨some 0, "orig config text", none, false, false⟩ :=
  C10_empty_result wit10Env rfl rfl rfl rfl rfl rfl

/-- C4: when the task exists but its non-blocking lock acquisition hits
`BlockingIOError`, `run_task` returns silently — no SyncLog row, no task
status update, lock not held, no exception. -/
theorem C4_lock_contention (env : RunEnv)
    (ht : env.taskExists = true) (hl : env.lockFree = false) :
    run_task env = ⟨⟨[], none, false, false⟩, none⟩ := by
  simp [run_task, ht, hl]

/-- Witness for C4 at a concrete environment. -/
theorem C4_lock_contention_witness :
    run_task wit4Env = ⟨⟨[], none, false, false⟩, none⟩ :=
  C4_lock_contention wit4Env rfl rfl

/-- Every pattern occurs in any list that extends it on both sides. -/
theorem subList_append (pat xs ys : List Char) :
    subList pat (xs ++ pat ++ ys) = true := by
  induction xs with
  | nil =>
    cases hp : pat with
    | nil =>
      cases ys with
      | nil => rfl
      | cons c cs => simp [subList]
    | cons c cs =>
      simp only [List.nil_append, List.cons_append, subList, Bool.or_eq_true]
      left
      exact List.isPrefixOf_iff_prefix.mpr ⟨ys, rfl⟩
  | cons x xs ih =>
    simp only [List.cons_append, subList, Bool.or_eq_true]
    right
    exact ih

/-- A string that starts with `pat` contains `pat`. -/
theorem strContains_left (pat rest : String) :
    strContains (pat ++ rest) pat = true := by
  have h := subList_append pat.toList [] rest.toList
  simpa [strContains, String.toList, String.data_append] using h

/-- C1 counterexample: the claim as written is false — when the finalize
transaction itself raises (the lock-release block is not a `finally`),
the lock stays held and the log row is left at `running`. -/
theorem C1_counterexample : ¬ C1_asStated := by
  intro h
  exact absurd (h cex1Env rfl rfl).1 (by decide)

/-- C1 amended: any exception in the extract/materialize/configure/invoke
block is caught and persisted as a `fail` log containing the exception
detail, and — provided the finalize transaction and the webhook-failure
log append themselves do not raise — the run returns normally, the lock
is released and no log row is left at `running`. -/
theorem C1_run_failure_semantics (env : RunEnv)
    (ht : env.taskExists = true) (hl : env.lockFree = true)
    (hfin : env.finalizeRaises = false) (hnot : env.notifyAppendRaises = false) :
    (run_task env).raised = none
    ∧ (run_task env).state.lockHeld = false
    ∧ (∀ l ∈ (run_task env).state.logs, l.status ≠ "running")
    ∧ (∀ e tb, env.prepErr = some (e, tb) →
        ∃ l ∈ (run_task env).state.logs,
          l.status = "fail" ∧ strContains l.message ("异常: " ++ e) = true) := by
  rcases hp : env.prepErr with _ | etb
  · rcases hok : (run_xtf_with_config env.xtf).2.1 with _ | _
    · rcases hw : (sendWebhook env.webhook ("[DataSync] 任务失败: " ++ env.taskName ++ " - "
        ++ failMessage (run_xtf_with_config env.xtf).1 (run_xtf_with_config env.xtf).2.2)).1.1
        with _ | _
      · simp [run_task, ht, hl, hfin, hnot, hp, hok, hw]
      · simp [run_task, ht, hl, hfin, hnot, hp, hok, hw]
    · simp [run_task, ht, hl, hfin, hnot, hp, hok]
  · obtain ⟨e, tb⟩ := etb
    rcases hw : (sendWebhook env.webhook ("[DataSync] 任务失败: " ++ env.taskName ++ " - "
        ++ ("异常: " ++ e ++ "\n" ++ tb))).1.1 with _ | _
    · refine ⟨?_, ?_, ?_, ?_⟩
      · simp [run_task, ht, hl, hfin, hnot, hp, hw]
      · simp [run_task, ht, hl, hfin, hnot, hp, hw]
      · simp [run_task, ht, hl, hfin, hnot, hp, hw]
      · intro e' tb' hp'
        injection hp' with h1
        injection h1 with he htb
        subst he
        subst htb
        refine ⟨⟨"fail", "异常: " ++ e ++ "\n" ++ tb ++ " | Webhook推送失败: "
          ++ (sendWebhook env.webhook ("[DataSync] 任务失败: " ++ env.taskName ++ " - "
              ++ ("异常: " ++ e ++ "\n" ++ tb))).1.2, true⟩, ?_, rfl, ?_⟩
        · simp [run_task, ht, hl, hfin, hnot, hp, hw]
        · have : ("异常: " ++ e ++ "\n" ++ tb ++ " | Webhook推送失败: "
              ++ (sendWebhook env.webhook ("[DataSync] 任务失败: " ++ env.taskName ++ " - "
                  ++ ("异常: " ++ e ++ "\n" ++ tb))).1.2)
              = ("异常: " ++ e) ++ ("\n" ++ tb ++ " | Webhook推送失败: "
              ++ (sendWebhook env.webhook ("[DataSync] 任务失败: " ++ env.taskName ++ " - "
                  ++ ("异常: " ++ e ++ "\n" ++ tb))).1.2) := by
            simp [String.append_assoc]
          rw [this]
          exact strContains_left _ _
    · refine ⟨?_, ?_, ?_, ?_⟩
      · simp [run_task, ht, hl, hfin, hnot, hp, hw]
      · simp [run_task, ht, hl, hfin, hnot, hp, hw]
      · simp [run_task, ht, hl, hfin, hnot, hp, hw]
      · intro e' tb' hp'
        injection hp' with h1
        injection h1 with he htb
        subst he
        subst htb
        refine ⟨⟨"fail", "异常: " ++ e ++ "\n" ++ tb, true⟩, ?_, rfl, ?_⟩
        · simp [run_task, ht, hl, hfin, hnot, hp, hw]
        · have : ("异常: " ++ e ++ "\n" ++ tb)
              = ("异常: " ++ e) ++ ("\n" ++ tb) := by simp [String.append_assoc]
          rw [this]
          exact strContains_left _ _

/-- Witness for the amended C1: a concrete run whose pipeline raised
`boom`; the run returns normally with the lock released, the single log
row finalized as `fail` and carrying the exception text. -/
theorem C1_run_failure_semantics_witness :
    (run_task wit1Env).raised = none ∧ (run_task wit1Env).state.lockHeld = false :=
  (fun h => ⟨h.1, h.2.1⟩) (C1_run_failure_semantics wit1Env rfl rfl rfl rfl)

/-- Membership in the jobs list after a removal. -/
theorem mem_remove_job {jobs : Jobs} {tid x : Nat} :
    (∃ j ∈ remove_job jobs tid, j.1 = x) ↔ (x ≠ tid ∧ ∃ j ∈ jobs, j.1 = x) := by
  simp only [remove_job, List.mem_filter, decide_eq_true_eq]
  constructor
  · rintro ⟨j, ⟨hj, hne⟩, rfl⟩
    exact ⟨hne, j, hj, rfl⟩
  · rintro ⟨hne, j, hj, rfl⟩
    exact ⟨j, ⟨hj, hne⟩, rfl⟩

/-- Membership in the jobs list after a replace-existing registration. -/
theorem mem_add_job {jobs : Jobs} {tid x : Nat} {trig : CronFields} :
    (∃ j ∈ add_job jobs tid trig, j.1 = x) ↔ (x = tid ∨ ∃ j ∈ jobs, j.1 = x) := by
  simp only [add_job, List.mem_cons]
  constructor
  · rintro ⟨j, hj | hj, rfl⟩
    · rw [hj]
      exact Or.inl rfl
    · exact Or.inr ⟨j, List.mem_of_mem_filter hj, rfl⟩
  · rintro (rfl | ⟨j, hj, rfl⟩)
    · exact ⟨(x, trig), Or.inl rfl, rfl⟩
    · by_cases h : j.1 = tid
      · exact ⟨(tid, trig), Or.inl rfl, h.symm⟩
      · exact ⟨j, Or.inr (List.mem_filter.mpr ⟨hj, by simp [h]⟩), rfl⟩

/-- Removal keeps registered job ids unique. -/
theorem remove_job_nodup {jobs : Jobs} {tid : Nat}
    (h : (jobs.map Prod.fst).Nodup) : ((remove_job jobs tid).map Prod.fst).Nodup :=
  ((List.filter_sublist jobs).map Prod.fst).nodup h

/-- Replace-existing registration keeps registered job ids unique. -/
theorem add_job_nodup {jobs : Jobs} {tid : Nat} {trig : CronFields}
    (h : (jobs.map Prod.fst).Nodup) : ((add_job jobs tid trig).map Prod.fst).Nodup := by
  simp only [add_job, List.map_cons]
  refine List.nodup_cons.mpr ⟨?_, remove_job_nodup h⟩
  intro hmem
  obtain ⟨j, hj, hj1⟩ := List.mem_map.mp hmem
  have hne := (List.mem_filter.mp hj).2
  simp only [decide_eq_true_eq] at hne
  exact hne hj1

/-- After a removal, no job with the removed id remains. -/
theorem filter_remove_self (jobs : Jobs) (tid : Nat) :
    (remove_job jobs tid).filter (fun j => j.1 = tid) = [] := by
  simp only [remove_job, List.filter_filter]
  rw [List.filter_eq_nil_iff]
  intro j hj
  simp

/-- After a replace-existing registration, exactly one job with the id
remains. -/
theorem filter_add_self (jobs : Jobs) (tid : Nat) (trig : CronFields) :
    (add_job jobs tid trig).filter (fun j => j.1 = tid) = [(tid, trig)] := by
  have h0 := filter_remove_self jobs tid
  simp only [add_job, List.filter_cons, decide_eq_true_eq]
  rw [if_pos trivial, h0]

/-- The result of `upsert_job` on an enabled task whose registration
completed without raising. -/
theorem upsert_job_ok {jobs : Jobs} {task : SyncTask}
    (henab : task.enabled = true)
    (h2 : (upsert_job jobs task).2 = none) :
    ∃ trig, parse_cron_expr task.cron_expr = .ok trig
      ∧ (upsert_job jobs task).1 = add_job (remove_job jobs task.id) task.id trig := by
  unfold upsert_job at h2 ⊢
  rw [henab] at h2 ⊢
  simp only [Bool.not_true, Bool.false_eq_true, if_false] at h2 ⊢
  rcases hp : parse_cron_expr task.cron_expr with e | trig
  · rw [hp] at h2
    exact Option.noConfusion h2
  · exact ⟨trig, rfl, rfl⟩

/-- `upsert_job` on a disabled task only removes. -/
theorem upsert_job_disabled {jobs : Jobs} {task : SyncTask}
    (henab : task.enabled = false) :
    upsert_job jobs task = (remove_job jobs task.id, none) := by
  unfold upsert_job
  rw [henab]
  rfl

/-- C6: a cron expression splitting into other than 5 whitespace-separated
fields makes `parse_cron_expr` raise a `ValueError`; exactly 5 fields map
in order to minute, hour, day-of-month, month, day-of-week; and for an
enabled task the parse failure propagates out of `upsert_job` leaving no
trigger registered under the task's id. -/
theorem C6_cron_field_count :
    (∀ expr : String, (pySplitWs expr).length ≠ 5 →
        parse_cron_expr expr = .error cronErrMsg)
    ∧ (∀ expr m h d mo dw, pySplitWs expr = [m, h, d, mo, dw] →
        parse_cron_expr expr = .ok ⟨m, h, d, mo, dw⟩)
    ∧ (∀ (jobs : Jobs) (task : SyncTask) (e : String), task.enabled = true →
        parse_cron_expr task.cron_expr = .error e →
        (upsert_job jobs task).2 = some e
        ∧ ∀ j ∈ (upsert_job jobs task).1, j.1 ≠ task.id) := by
  refine ⟨?_, ?_, ?_⟩
  · intro expr hlen
    simp [parse_cron_expr, hlen]
  · intro expr m h d mo dw hsplit
    simp [parse_cron_expr, hsplit]
  · intro jobs task e henab hparse
    unfold upsert_job
    rw [henab]
    simp only [Bool.not_true, Bool.false_eq_true, if_false, hparse]
    refine ⟨trivial, ?_⟩
    intro j hj
    have hne := (List.mem_filter.mp hj).2
    simpa using hne

/-- Witness for C6 at concrete expressions: a 4-field expression is
rejected, the default 5-field expression parses in order. -/
theorem C6_cron_field_count_witness :
    parse_cron_expr "0 3 * *" = .error cronErrMsg
    ∧ parse_cron_expr "0 3 * * *" = .ok ⟨"0", "3", "*", "*", "*"⟩ :=
  ⟨C6_cron_field_count.1 "0 3 * *" (by decide),
   C6_cron_field_count.2.1 "0 3 * * *" "0" "3" "*" "*" "*" (by decide)⟩

/-- Enabled-task membership after appending a new row. -/
theorem mem_tasks_append {tasks : List SyncTask} {t0 : SyncTask} {x : Nat} :
    (∃ t ∈ tasks ++ [t0], t.id = x ∧ t.enabled = true)
      ↔ ((∃ t ∈ tasks, t.id = x ∧ t.enabled = true) ∨ (t0.id = x ∧ t0.enabled = true)) := by
  simp only [List.mem_append, List.mem_singleton]
  constructor
  · rintro ⟨t, ht | rfl, hx, he⟩
    · exact Or.inl ⟨t, ht, hx, he⟩
    · exact Or.inr ⟨hx, he⟩
  · rintro (⟨t, ht, hx, he⟩ | ⟨hx, he⟩)
    · exact ⟨t, Or.inl ht, hx, he⟩
    · exact ⟨t0, Or.inr rfl, hx, he⟩

/-- Enabled-task membership at an id other than the edited one is
unchanged by the in-place row update. -/
theorem mem_tasks_upd_ne {tasks : List SyncTask} {tid x : Nat} {t' : SyncTask}
    (hid : t'.id = tid) (hne : x ≠ tid) :
    (∃ u ∈ tasks.map (fun u => if u.id = tid then t' else u), u.id = x ∧ u.enabled = true)
      ↔ (∃ u ∈ tasks, u.id = x ∧ u.enabled = true) := by
  simp only [List.mem_map]
  constructor
  · rintro ⟨u, ⟨v, hv, rfl⟩, hs, he⟩
    by_cases h : v.id = tid
    · rw [if_pos h] at hs he
      exact absurd (hs.symm.trans hid) hne
    · rw [if_neg h] at hs he
      exact ⟨v, hv, hs, he⟩
  · rintro ⟨u, hu, hs, he⟩
    have h : u.id ≠ tid := fun hh => hne (hs.symm.trans hh)
    exact ⟨u, ⟨u, hu, by rw [if_neg h]⟩, hs, he⟩

/-- Enabled-task membership at the edited id after the in-place row
update is the new row's enabled flag. -/
theorem mem_tasks_upd_self {tasks : List SyncTask} {tid : Nat} {t t' : SyncTask}
    (hid : t'.id = tid)
    (hfind : tasks.find? (fun u => u.id = tid) = some t) :
    ((∃ u ∈ tasks.map (fun u => if u.id = tid then t' else u), u.id = tid ∧ u.enabled = true)
      ↔ t'.enabled = true) := by
  constructor
  · rintro ⟨u, hu, hs, he⟩
    obtain ⟨v, hv, rfl⟩ := List.mem_map.mp hu
    by_cases h : v.id = tid
    · rw [if_pos h] at he
      exact he
    · rw [if_neg h] at hs
      exact absurd hs h
  · intro he
    have hmem := List.mem_of_find?_eq_some hfind
    have hpt : t.id = tid := by
      have := List.find?_some hfind
      simpa using this
    exact ⟨t', List.mem_map.mpr ⟨t, hmem, by rw [if_pos hpt]⟩, hid, he⟩

/-- Enabled-task membership after deleting a row. -/
theorem mem_tasks_del {tasks : List SyncTask} {tid x : Nat} :
    (∃ u ∈ tasks.filter (fun t => t.id ≠ tid), u.id = x ∧ u.enabled = true)
      ↔ (x ≠ tid ∧ ∃ u ∈ tasks, u.id = x ∧ u.enabled = true) := by
  simp only [List.mem_filter, decide_eq_true_eq]
  constructor
  · rintro ⟨u, ⟨hu, hne⟩, hs, he⟩
    exact ⟨fun hh => hne (hs.trans hh), u, hu, hs, he⟩
  · rintro ⟨hne, u, hu, hs, he⟩
    exact ⟨u, ⟨hu, fun hh => hne (hs.symm.trans hh)⟩, hs, he⟩

/-- Appending a fresh id keeps task ids unique. -/
theorem tasks_append_nodup {tasks : List SyncTask} {t0 : SyncTask}
    (h : (tasks.map SyncTask.id).Nodup)
    (hfresh : ∀ t ∈ tasks, t.id ≠ t0.id) :
    ((tasks ++ [t0]).map SyncTask.id).Nodup := by
  rw [List.map_append]
  refine h.append (by simp) ?_
  intro a ha hb
  simp only [List.map_cons, List.map_nil, List.mem_singleton] at hb
  obtain ⟨t, ht, rfl⟩ := List.mem_map.mp ha
  exact hfresh t ht hb

/-- The in-place row update keeps the id multiset, hence id uniqueness. -/
theorem tasks_upd_nodup {tasks : List SyncTask} {tid : Nat} {t' : SyncTask}
    (hid : t'.id = tid)
    (h : (tasks.map SyncTask.id).Nodup) :
    ((tasks.map (fun u => if u.id = tid then t' else u)).map SyncTask.id).Nodup := by
  have heq : (tasks.map (fun u => if u.id = tid then t' else u)).map SyncTask.id
      = tasks.map SyncTask.id := by
    rw [List.map_map]
    refine List.map_congr_left ?_
    intro u hu
    by_cases hh : u.id = tid
    · simp [Function.comp, hh, hid]
    · simp [Function.comp, hh]
  rw [heq]
  exact h

/-- Deleting rows keeps task ids unique. -/
theorem tasks_del_nodup {tasks : List SyncTask} {tid : Nat}
    (h : (tasks.map SyncTask.id).Nodup) :
    ((tasks.filter (fun t => t.id ≠ tid)).map SyncTask.id).Nodup :=
  ((List.filter_sublist tasks).map SyncTask.id).nodup h

/-- The empty application state satisfies the invariant. -/
theorem inv_empty : Inv emptyApp := by
  refine ⟨?_, by simp [emptyApp], by simp [emptyApp]⟩
  intro tid
  simp [emptyApp]

/-- Invariant-preservation kernel for the two routes that rewrite one
task row in place: given the characterization of the resulting jobs list,
the synchronized state satisfies the invariant. -/
theorem inv_upd_common {s : AppState} (hInv : Inv s) {tid : Nat} {t t' : SyncTask}
    (hfind : s.tasks.find? (fun u => u.id = tid) = some t)
    (hid : t'.id = tid)
    {jobs' : Jobs}
    (hjobs : ∀ x, (∃ j ∈ jobs', j.1 = x)
        ↔ ((x = tid ∧ t'.enabled = true) ∨ (x ≠ tid ∧ ∃ j ∈ s.jobs, j.1 = x)))
    (hnodup : (jobs'.map Prod.fst).Nodup) :
    Inv ⟨s.tasks.map (fun u => if u.id = tid then t' else u), jobs'⟩ := by
  refine ⟨?_, tasks_upd_nodup hid hInv.tasksNodup, hnodup⟩
  intro x
  dsimp only
  rw [hjobs x]
  by_cases hx : x = tid
  · subst hx
    rw [mem_tasks_upd_self hid hfind]
    constructor
    · rintro (⟨-, he⟩ | ⟨hne, -⟩)
      · exact he
      · exact absurd rfl hne
    · intro he
      exact Or.inl ⟨rfl, he⟩
  · rw [mem_tasks_upd_ne hid hx, ← hInv.sync x]
    constructor
    · rintro (⟨hx', -⟩ | ⟨-, hj⟩)
      · exact absurd hx' hx
      · exact hj
    · intro hj
      exact Or.inr ⟨hx, hj⟩

/-- Creation with a fresh id preserves the invariant when the handler
returns without raising. -/
theorem inv_create {s : AppState} (hInv : Inv s) {newId : Nat} {f : TaskForm} {s' : AppState}
    (hfresh : ∀ t ∈ s.tasks, t.id ≠ newId)
    (hc : create_task s newId f = (s', none)) : Inv s' := by
  simp only [create_task] at hc
  injection hc with h1 h2
  subst h1
  obtain ⟨trig, hp, hj⟩ := @upsert_job_ok s.jobs (taskFromForm newId f) rfl h2
  refine ⟨?_, ?_, ?_⟩
  · intro x
    dsimp only
    rw [hj, mem_add_job, mem_remove_job, mem_tasks_append, ← hInv.sync x]
    have hTid : (taskFromForm newId f).id = newId := rfl
    have hTen : (taskFromForm newId f).enabled = true := rfl
    by_cases hx : x = newId
    · subst hx
      exact ⟨fun _ => Or.inr ⟨rfl, rfl⟩, fun _ => Or.inl rfl⟩
    · constructor
      · rintro (h | ⟨-, hJ⟩)
        · exact absurd h hx
        · exact Or.inl hJ
      · rintro (hJ | ⟨hTx, -⟩)
        · exact Or.inr ⟨hx, hJ⟩
        · exact absurd hTx.symm hx
  · exact tasks_append_nodup hInv.tasksNodup hfresh
  · dsimp only
    rw [hj]
    exact add_job_nodup (remove_job_nodup hInv.jobsNodup)

/-- Editing preserves the invariant when the handler returns without
raising. -/
theorem inv_edit {s : AppState} (hInv : Inv s) {tid : Nat} {f : TaskForm} {s' : AppState}
    (hc : edit_task s tid f = (s', none)) : Inv s' := by
  rcases hf : s.tasks.find? (fun u => u.id = tid) with _ | t
  · simp only [edit_task, hf] at hc
    injection hc with h1 h2
    exact h1 ▸ hInv
  · simp only [edit_task, hf] at hc
    injection hc with h1 h2
    subst h1
    have hidt : t.id = tid := by
      have := List.find?_some hf
      simpa using this
    have hid' : (editedTask f t).id = tid := hidt
    rcases henab : (editedTask f t).enabled with _ | _
    · have hu := @upsert_job_disabled s.jobs (editedTask f t) henab
      refine inv_upd_common hInv hf hid' ?_ ?_
      · intro x
        rw [hu]
        dsimp only
        rw [hid', mem_remove_job]
        constructor
        · rintro ⟨hne, hJ⟩
          exact Or.inr ⟨hne, hJ⟩
        · rintro (⟨-, he⟩ | ⟨hne, hJ⟩)
          · rw [henab] at he
            cases he
          · exact ⟨hne, hJ⟩
      · rw [hu]
        exact remove_job_nodup hInv.jobsNodup
    · obtain ⟨trig, hp, hj⟩ := upsert_job_ok henab h2
      refine inv_upd_common hInv hf hid' ?_ ?_
      · intro x
        rw [hj, hid', mem_add_job, mem_remove_job]
        constructor
        · rintro (rfl | ⟨hne, hJ⟩)
          · exact Or.inl ⟨rfl, henab⟩
          · exact Or.inr ⟨hne, hJ⟩
        · rintro (⟨rfl, -⟩ | ⟨hne, hJ⟩)
          · exact Or.inl rfl
          · exact Or.inr ⟨hne, hJ⟩
      · rw [hj]
        exact add_job_nodup (remove_job_nodup hInv.jobsNodup)

/-- Toggling preserves the invariant when the handler returns without
raising. -/
theorem inv_toggle {s : AppState} (hInv : Inv s) {tid : Nat} {s' : AppState}
    (hc : toggle_task s tid = (s', none)) : Inv s' := by
  rcases hf : s.tasks.find? (fun u => u.id = tid) with _ | t
  · simp only [toggle_task, hf] at hc
    injection hc with h1 h2
    exact h1 ▸ hInv
  · have hidt : t.id = tid := by
      have := List.find?_some hf
      simpa using this
    have hid' : (toggledTask t).id = tid := hidt
    simp only [toggle_task, hf] at hc
    rcases henab : (toggledTask t).enabled with _ | _
    · rw [henab] at hc
      simp only [Bool.false_eq_true, if_false] at hc
      injection hc with h1 h2
      subst h1
      refine inv_upd_common hInv hf hid' ?_ ?_
      · intro x
        rw [mem_remove_job]
        constructor
        · rintro ⟨hne, hJ⟩
          exact Or.inr ⟨hne, hJ⟩
        · rintro (⟨-, he⟩ | ⟨hne, hJ⟩)
          · rw [henab] at he
            cases he
          · exact ⟨hne, hJ⟩
      · exact remove_job_nodup hInv.jobsNodup
    · rw [henab] at hc
      simp only [if_true] at hc
      injection hc with h1 h2
      subst h1
      obtain ⟨trig, hp, hj⟩ := upsert_job_ok henab h2
      refine inv_upd_common hInv hf hid' ?_ ?_
      · intro x
        rw [hj, hid', mem_add_job, mem_remove_job]
        constructor
        · rintro (rfl | ⟨hne, hJ⟩)
          · exact Or.inl ⟨rfl, henab⟩
          · exact Or.inr ⟨hne, hJ⟩
        · rintro (⟨rfl, -⟩ | ⟨hne, hJ⟩)
          · exact Or.inl rfl
          · exact Or.inr ⟨hne, hJ⟩
      · rw [hj]
        exact add_job_nodup (remove_job_nodup hInv.jobsNodup)

/-- Deletion preserves the invariant. -/
theorem inv_delete {s : AppState} (hInv : Inv s) {tid : Nat} {s' : AppState}
    (hc : delete_task s tid = (s', none)) : Inv s' := by
  rcases hf : s.tasks.find? (fun u => u.id = tid) with _ | t
  · simp only [delete_task, hf] at hc
    injection hc with h1 h2
    exact h1 ▸ hInv
  · simp only [delete_task, hf] at hc
    injection hc with h1 h2
    subst h1
    refine ⟨?_, tasks_del_nodup hInv.tasksNodup, remove_job_nodup hInv.jobsNodup⟩
    intro x
    dsimp only
    rw [mem_remove_job, mem_tasks_del, ← hInv.sync x]

/-- C5: from an invariant-satisfying state, every task-mutating route
that completes without raising preserves "a trigger is registered under a
task's id iff that task exists and is enabled" (create requires the fresh
autoincrement id); moreover toggling an enabled task removes every
trigger under its id, and toggling a disabled task with a parseable cron
expression installs exactly one trigger under its id. -/
theorem C5_schedule_sync (s : AppState) (hInv : Inv s) :
    (∀ (newId : Nat) (f : TaskForm) (s' : AppState),
        (∀ t ∈ s.tasks, t.id ≠ newId) → create_task s newId f = (s', none) → Inv s')
    ∧ (∀ (tid : Nat) (f : TaskForm) (s' : AppState),
        edit_task s tid f = (s', none) → Inv s')
    ∧ (∀ (tid : Nat) (s' : AppState), toggle_task s tid = (s', none) → Inv s')
    ∧ (∀ (tid : Nat) (s' : AppState), delete_task s tid = (s', none) → Inv s')
    ∧ (∀ (tid : Nat) (t : SyncTask) (s' : AppState),
        s.tasks.find? (fun u => u.id = tid) = some t → t.enabled = true →
        toggle_task s tid = (s', none) →
        (s'.jobs.filter (fun j => j.1 = tid)).length = 0)
    ∧ (∀ (tid : Nat) (t : SyncTask) (s' : AppState) (trig : CronFields),
        s.tasks.find? (fun u => u.id = tid) = some t → t.enabled = false →
        parse_cron_expr t.cron_expr = .ok trig →
        toggle_task s tid = (s', none) →
        (s'.jobs.filter (fun j => j.1 = tid)).length = 1) := by
  refine ⟨fun newId f s' hfresh hc => inv_create hInv hfresh hc,
          fun tid f s' hc => inv_edit hInv hc,
          fun tid s' hc => inv_toggle hInv hc,
          fun tid s' hc => inv_delete hInv hc, ?_, ?_⟩
  · intro tid t s' hf ht hc
    have henab : (toggledTask t).enabled = false := by simp [toggledTask, ht]
    simp only [toggle_task, hf] at hc
    rw [henab] at hc
    simp only [Bool.false_eq_true, if_false] at hc
    injection hc with h1 h2
    subst h1
    dsimp only
    rw [filter_remove_self]
    rfl
  · intro tid t s' trig hf ht hp hc
    have henab : (toggledTask t).enabled = true := by simp [toggledTask, ht]
    have hidt : t.id = tid := by
      have := List.find?_some hf
      simpa using this
    have hidT : (toggledTask t).id = tid := hidt
    simp only [toggle_task, hf] at hc
    rw [henab] at hc
    simp only [if_true] at hc
    injection hc with h1 h2
    subst h1
    have hp' : parse_cron_expr (toggledTask t).cron_expr = .ok trig := hp
    obtain ⟨trig', hp2, hj⟩ := upsert_job_ok henab h2
    have htr : trig' = trig := by
      rw [hp'] at hp2
      injection hp2 with h
      exact h.symm
    dsimp only
    rw [hj, hidT, htr, filter_add_self]
    rfl

/-- Witness for C5: creating a task with the default form in the empty
state yields a state satisfying the invariant. -/
theorem C5_schedule_sync_witness :
    Inv (AppState.mk [defaultTask] [(1, defaultTrig)]) :=
  (C5_schedule_sync emptyApp inv_empty).1 1 defaultForm
    (AppState.mk [defaultTask] [(1, defaultTrig)]) (by simp [emptyApp]) (by decide)

end MTB
